import Mathlib

/-!
Verification of the r53tool record-set mutation logic.

Shallow embedding of the core of `main.go` (the r53tool CLI): zone-name
derivation (`recordToZone`), zone resolution with pagination
(`zoneIDByName`), record-set location (`getResourceRecordSet`) and the two
record-set mutators (`addToARecordResourceRecordSet`,
`delFromARecordResourceRecordSet`).

Modelling conventions:
* The AWS SDK's nullable string pointers (`*string`) are modelled as
  `Option String` exactly where the tool may observe `nil` (the
  `Name`/`SetIdentifier`/`Type` style fields of a listed record set).
  Fields the tool itself always constructs non-nil and dereferences
  unconditionally (`ResourceRecord.Value`, `HostedZone.Name`,
  `HostedZone.ID`) are modelled as plain `String`.
* A Go map of type `map[string]struct{}` is modelled as a duplicate-free
  `List String` of its keys in insertion order; `delete` is `List.erase`.
  Properties proved about its key list are order-insensitive (membership),
  matching Go's unordered iteration.
* The remote API is passed in as data: the sequence of pages a paginated
  listing call would return, or a function from request to response.
* Go's `strings.Split` on the one-character separators the tool uses is
  modelled by the executable `splitOnChar`; `strings.Join` is
  `String.intercalate`.
-/

set_option autoImplicit false

namespace R53Tool

/-- Equality of `Except` results is decidable; used so witnesses can be
checked by `decide`. -/
instance {ε α : Type} [DecidableEq ε] [DecidableEq α] :
    DecidableEq (Except ε α) := fun a b => by
  cases a <;> cases b
  case ok.ok x y =>
    exact if h : x = y then .isTrue (by rw [h]) else .isFalse (by simp [h])
  case error.error x y =>
    exact if h : x = y then .isTrue (by rw [h]) else .isFalse (by simp [h])
  all_goals exact .isFalse (by simp)

/-- Model of `route53.ResourceRecord`. `Value` is `*string` in the SDK; the tool
always builds it with `aws.String` and dereferences it unconditionally, so
it is modelled as a plain `String`. -/
structure ResourceRecord where
  Value : String
deriving DecidableEq, Repr

/-- Model of `route53.AliasTarget` (never touched by the tool, carried through). -/
structure AliasTarget where
  DNSName : Option String
  EvaluateTargetHealth : Option Bool
  HostedZoneID : Option String
deriving DecidableEq, Repr

/-- Model of `route53.GeoLocation` (never touched by the tool, carried through). -/
structure GeoLocation where
  ContinentCode : Option String
  CountryCode : Option String
  SubdivisionCode : Option String
deriving DecidableEq, Repr

/-- Model of `route53.ResourceRecordSet`. `Name` and `SetIdentifier` are kept as
`Option String` because `getResourceRecordSet` dereferences them on listed
record sets that the remote side may return with `nil` fields. -/
structure ResourceRecordSet where
  AliasTarget : Option AliasTarget
  Failover : Option String
  GeoLocation : Option GeoLocation
  HealthCheckID : Option String
  Name : Option String
  Region : Option String
  ResourceRecords : List ResourceRecord
  SetIdentifier : Option String
  TTL : Option Int
  «Type» : Option String
  Weight : Option Int
deriving DecidableEq, Repr

/-- Model of `route53.Change` as built by the mutators. -/
structure Change where
  Action : String
  ResourceRecordSet : ResourceRecordSet
deriving DecidableEq, Repr

/-- Model of `route53.ChangeBatch`. -/
structure ChangeBatch where
  Changes : List Change
deriving DecidableEq, Repr

/-- Model of `route53.ChangeResourceRecordSetsRequest`. -/
structure ChangeResourceRecordSetsRequest where
  HostedZoneID : String
  ChangeBatch : ChangeBatch
deriving DecidableEq, Repr

/-- Model of `route53.HostedZone` (only the two fields the tool reads). Both are
dereferenced unconditionally, so they are modelled as plain `String`. -/
structure HostedZone where
  Name : String
  ID : String
deriving DecidableEq, Repr

/-- Model of `route53.ListHostedZonesResponse` (the fields the tool reads). -/
structure ListHostedZonesResponse where
  HostedZones : List HostedZone
  IsTruncated : Bool
  NextMarker : Option String
deriving DecidableEq, Repr

/-- Model of `route53.ListResourceRecordSetsRequest` (the fields the tool sets). -/
structure ListResourceRecordSetsRequest where
  HostedZoneID : String
  StartRecordName : Option String
  StartRecordType : Option String
deriving DecidableEq, Repr

/-- Model of `route53.ListResourceRecordSetsResponse` (the field the tool reads). -/
structure ListResourceRecordSetsResponse where
  ResourceRecordSets : List ResourceRecordSet
deriving DecidableEq, Repr

/-- Go's `strings.Split` restricted to a one-character separator (the tool
only splits on `"."` and `"/"`): structural recursion over the characters,
so proofs can evaluate it. `acc` holds the current field reversed. -/
def splitOnCharAux (sep : Char) : List Char → List Char → List String
  | [], acc => [String.mk acc.reverse]
  | c :: cs, acc =>
    if c = sep then String.mk acc.reverse :: splitOnCharAux sep cs []
    else splitOnCharAux sep cs (c :: acc)

/-- Model of `strings.Split(s, sep)` for a one-character `sep`. -/
def splitOnChar (sep : Char) (s : String) : List String :=
  splitOnCharAux sep s.data []

/-- Function `recordToZone` from `main.go`: splits a name on `"."`; errors when
fewer than 3 labels, otherwise rejoins the final 3 labels with `"."`. -/
def recordToZone (name : String) : Except String String :=
  let labels := splitOnChar '.' name
  if labels.length < 3 then
    Except.error "name must have at least one period"
  else
    Except.ok (String.intercalate "." (labels.drop (labels.length - 3)))

/-- The spec's phrase "the last 3 labels": the final `n` elements of a
list, here obtained through `reverse`/`take` rather than the source's
`drop (length - n)` so the theorem compares the two formulations. -/
def lastLabels (n : Nat) (labels : List String) : List String :=
  (labels.reverse.take n).reverse

/-- The zone-ID extraction step inside `zoneIDByName`: split the zone's
full resource path on `"/"`, demand exactly 3 components, return the last
(`components[len(components)-1]`). -/
def extractZoneID (id : String) : Except String String :=
  let components := splitOnChar '/' id
  if components.length ≠ 3 then
    Except.error ("problem splitting id from " ++ id ++ "\n")
  else
    Except.ok (components.getD (components.length - 1) "")

theorem drop_length_sub_eq_lastLabels (n : Nat) (xs : List String) :
    xs.drop (xs.length - n) = lastLabels n xs := by
  unfold lastLabels
  rw [List.take_reverse, List.reverse_reverse]

/-- C2: for any name with at least 3 dot-separated labels, `recordToZone`
returns exactly the last 3 labels rejoined with "."; for any name with
fewer than 3 labels it fails with the InvalidName error. -/
theorem recordToZone_last_three_labels (name : String) :
    (3 ≤ (splitOnChar '.' name).length →
      recordToZone name =
        Except.ok (String.intercalate "." (lastLabels 3 (splitOnChar '.' name)))) ∧
    ((splitOnChar '.' name).length < 3 →
      recordToZone name = Except.error "name must have at least one period") := by
  constructor
  · intro h
    unfold recordToZone
    rw [if_neg (by omega), drop_length_sub_eq_lastLabels]
  · intro h
    unfold recordToZone
    rw [if_pos h]

/-- Witness for C2 at concrete inputs: "www.example.com." splits into 4
labels and derives "example.com."; "a." splits into 2 labels and fails. -/
theorem recordToZone_last_three_labels_witness :
    (3 ≤ (splitOnChar '.' "www.example.com.").length ∧
      recordToZone "www.example.com." =
        Except.ok (String.intercalate "."
          (lastLabels 3 (splitOnChar '.' "www.example.com.")))) ∧
    ((splitOnChar '.' "a.").length < 3 ∧
      recordToZone "a." = Except.error "name must have at least one period") :=
  ⟨⟨by decide, (recordToZone_last_three_labels "www.example.com.").1 (by decide)⟩,
   ⟨by decide, (recordToZone_last_three_labels "a.").2 (by decide)⟩⟩

/-- C8: zone-ID extraction returns the last "/"-separated component when
the split has exactly 3 components, and fails with the MalformedZoneID
error otherwise; at the spec's example it returns "Z22CR2RGPPKRQB". -/
theorem extractZoneID_three_components (id : String) :
    ((splitOnChar '/' id).length = 3 →
      extractZoneID id = Except.ok ((splitOnChar '/' id).getD 2 "")) ∧
    ((splitOnChar '/' id).length ≠ 3 →
      extractZoneID id =
        Except.error ("problem splitting id from " ++ id ++ "\n")) ∧
    extractZoneID "/hostedzone/Z22CR2RGPPKRQB" = Except.ok "Z22CR2RGPPKRQB" := by
  refine ⟨fun h => ?_, fun h => ?_, by decide⟩
  · unfold extractZoneID
    rw [if_neg (by omega), h]
  · unfold extractZoneID
    rw [if_pos h]

/-- The page-walking loop of `zoneIDByName`. The remote server is modelled
as the list of responses successive `ListHostedZones` calls return (the
`Marker`/`NextMarker` handshake selects the next element). Each page is
scanned for the first zone whose `Name` equals the derived zone name; a
match returns `extractZoneID` of its `ID` at once. A page with
`IsTruncated = false` ends the walk with the ZoneNotFound error; running
out of responses while still truncated is a server fault, modelled as a
distinct error. -/
def zoneLoop (name : String) : List ListHostedZonesResponse → Except String String
  | [] => Except.error "ListHostedZones returned no response"
  | resp :: rest =>
    match resp.HostedZones.find? (fun zone => zone.Name == name) with
    | some zone => extractZoneID zone.ID
    | none =>
      if resp.IsTruncated then zoneLoop name rest
      else Except.error ("zone " ++ name ++ " not found")

/-- Function `zoneIDByName` from `main.go`: derive the zone name with
`recordToZone`, then walk the hosted-zone pages. -/
def zoneIDByName (pages : List ListHostedZonesResponse) (recordName : String) :
    Except String String :=
  match recordToZone recordName with
  | Except.error e => Except.error e
  | Except.ok name => zoneLoop name pages

/-- A well-behaved paginated server: at least one response, every response
before the last reports `IsTruncated = true`, and the last reports
`IsTruncated = false`. -/
def wellFormedPages : List ListHostedZonesResponse → Bool
  | [] => false
  | [p] => !p.IsTruncated
  | p :: rest => p.IsTruncated && wellFormedPages rest

theorem zoneLoop_eq_find (name : String) (pages : List ListHostedZonesResponse)
    (hwf : wellFormedPages pages = true) :
    zoneLoop name pages =
      match (pages.flatMap ListHostedZonesResponse.HostedZones).find?
          (fun zone => zone.Name == name) with
      | some zone => extractZoneID zone.ID
      | none => Except.error ("zone " ++ name ++ " not found") := by
  induction pages with
  | nil => simp [wellFormedPages] at hwf
  | cons p rest ih =>
    rw [List.flatMap_cons, List.find?_append]
    cases hfind : p.HostedZones.find? (fun zone => zone.Name == name) with
    | some zone => simp [zoneLoop, hfind, Option.or]
    | none =>
      cases rest with
      | nil =>
        have htr : p.IsTruncated = false := by
          simpa [wellFormedPages] using hwf
        simp [zoneLoop, hfind, htr, Option.or]
      | cons q rs =>
        have htr : p.IsTruncated = true := by
          simp [wellFormedPages] at hwf
          exact hwf.1
        have hwf' : wellFormedPages (q :: rs) = true := by
          simp [wellFormedPages] at hwf
          exact hwf.2
        simp only [zoneLoop, hfind, htr, if_true, Option.or]
        exact ih hwf'

/-- C7: over a well-formed paginated server, `zoneIDByName` walks every
page, compares each zone's name to the derived zone name by string
equality, returns the extracted identifier of the first matching zone, and
produces the ZoneNotFound error exactly when no page contains a match. -/
theorem zoneIDByName_paginates_to_first_match
    (pages : List ListHostedZonesResponse) (recordName name : String)
    (hwf : wellFormedPages pages = true)
    (hname : recordToZone recordName = Except.ok name) :
    zoneIDByName pages recordName =
      match (pages.flatMap ListHostedZonesResponse.HostedZones).find?
          (fun zone => zone.Name == name) with
      | some zone => extractZoneID zone.ID
      | none => Except.error ("zone " ++ name ++ " not found") := by
  unfold zoneIDByName
  rw [hname]
  exact zoneLoop_eq_find name pages hwf

/-- Witness for C7: a two-page server whose second page holds
"example.com."; resolving "www.example.com." walks past the first page and
returns the extracted ID of the match. -/
theorem zoneIDByName_paginates_to_first_match_witness :
    zoneIDByName
        [{ HostedZones := [{ Name := "other.org.", ID := "/hostedzone/ZOTHER" }],
           IsTruncated := true, NextMarker := some "m1" },
         { HostedZones := [{ Name := "example.com.", ID := "/hostedzone/ZEX" }],
           IsTruncated := false, NextMarker := none }]
        "www.example.com." =
      match (([{ HostedZones := [{ Name := "other.org.", ID := "/hostedzone/ZOTHER" }],
                 IsTruncated := true, NextMarker := some "m1" },
               { HostedZones := [{ Name := "example.com.", ID := "/hostedzone/ZEX" }],
                 IsTruncated := false, NextMarker := none }] :
              List ListHostedZonesResponse).flatMap
            ListHostedZonesResponse.HostedZones).find?
          (fun zone => zone.Name == "example.com.") with
      | some zone => extractZoneID zone.ID
      | none => Except.error ("zone " ++ "example.com." ++ " not found") :=
  zoneIDByName_paginates_to_first_match _ "www.example.com." "example.com."
    (by decide) (by decide)

/-- Witness for C8: the general clauses applied at "/hostedzone/ZID3" (3
components) and at "nozone" (1 component). -/
theorem extractZoneID_three_components_witness :
    ((splitOnChar '/' "/hostedzone/ZID3").length = 3 ∧
      extractZoneID "/hostedzone/ZID3" =
        Except.ok ((splitOnChar '/' "/hostedzone/ZID3").getD 2 "")) ∧
    ((splitOnChar '/' "nozone").length ≠ 3 ∧
      extractZoneID "nozone" =
        Except.error ("problem splitting id from " ++ "nozone" ++ "\n")) :=
  ⟨⟨by decide, (extractZoneID_three_components "/hostedzone/ZID3").1 (by decide)⟩,
   ⟨by decide, (extractZoneID_three_components "nozone").2.1 (by decide)⟩⟩

/-- A record set with every optional field absent and no addresses;
concrete inputs below are built from it with structure updates. -/
def blankRecordSet : ResourceRecordSet :=
  { AliasTarget := none, Failover := none, GeoLocation := none,
    HealthCheckID := none, Name := none, Region := none,
    ResourceRecords := [], SetIdentifier := none, TTL := none,
    «Type» := none, Weight := none }

/-- Outcome of the matching loop in `getResourceRecordSet`. Go has no
error value for a nil-pointer dereference — it panics — so the loop's
behaviour is one of: a match, no match, or a crash on a `nil`
`Name`/`SetIdentifier` field. -/
inductive LocateResult where
  | found (rrs : ResourceRecordSet)
  | notFound
  | nilDeref
deriving DecidableEq, Repr

/-- The matching loop of `getResourceRecordSet`:
`*rrs.Name == recordName && *rrs.SetIdentifier == setID` with Go's
short-circuit `&&`, so `SetIdentifier` is dereferenced only when the name
already matched. A `nil` field that is dereferenced yields `nilDeref`. -/
def scanRecordSets (recordName setID : String) :
    List ResourceRecordSet → LocateResult
  | [] => LocateResult.notFound
  | rrs :: rest =>
    match rrs.Name with
    | none => LocateResult.nilDeref
    | some n =>
      if n = recordName then
        match rrs.SetIdentifier with
        | none => LocateResult.nilDeref
        | some s =>
          if s = setID then LocateResult.found rrs
          else scanRecordSets recordName setID rest
      else scanRecordSets recordName setID rest

/-- The `ListResourceRecordSets` request `getResourceRecordSet` builds:
listing starts at `(recordName, recordType)`. -/
def listRequest (zoneID recordName recordType : String) :
    ListResourceRecordSetsRequest :=
  { HostedZoneID := zoneID,
    StartRecordName := some recordName,
    StartRecordType := some recordType }

/-- The RecordSetNotFound error text of `getResourceRecordSet`. -/
def recordSetNotFoundMsg (zoneID recordName recordType setID : String) : String :=
  "no ResourceRecordSets found for zoneID=" ++ zoneID ++ " recordName=" ++
    recordName ++ " recordType=" ++ recordType ++ " setIdentifier=" ++
    setID ++ "\n"

/-- Result of a Go function that can also crash: `ok`, a returned error,
or a runtime panic (here only from a nil dereference). -/
inductive GoResult (α : Type) where
  | ok (val : α)
  | goError (msg : String)
  | crashed
deriving DecidableEq, Repr

/-- Function `getResourceRecordSet` from `main.go`. The remote call is the `api`
argument; exactly one listing request is issued, at
`(recordName, recordType)`, and only its response page is scanned. -/
def getResourceRecordSet
    (api : ListResourceRecordSetsRequest →
      Except String ListResourceRecordSetsResponse)
    (zoneID recordName recordType setID : String) :
    GoResult ResourceRecordSet :=
  match api (listRequest zoneID recordName recordType) with
  | Except.error e => GoResult.goError e
  | Except.ok resp =>
    match scanRecordSets recordName setID resp.ResourceRecordSets with
    | LocateResult.found rrs => GoResult.ok rrs
    | LocateResult.notFound =>
      GoResult.goError (recordSetNotFoundMsg zoneID recordName recordType setID)
    | LocateResult.nilDeref => GoResult.crashed

theorem scanRecordSets_eq_find (recordName setID : String)
    (page : List ResourceRecordSet)
    (hsome : ∀ r ∈ page, r.Name.isSome ∧ r.SetIdentifier.isSome) :
    scanRecordSets recordName setID page =
      match page.find? (fun r =>
          decide (r.Name = some recordName ∧ r.SetIdentifier = some setID)) with
      | some r => LocateResult.found r
      | none => LocateResult.notFound := by
  induction page with
  | nil => rfl
  | cons r rest ih =>
    obtain ⟨hn, hs⟩ := hsome r (List.mem_cons_self r rest)
    obtain ⟨n, hn⟩ := Option.isSome_iff_exists.mp hn
    obtain ⟨s, hs⟩ := Option.isSome_iff_exists.mp hs
    have ihrest := ih (fun x hx => hsome x (List.mem_cons_of_mem r hx))
    rw [List.find?_cons]
    by_cases h1 : n = recordName
    · by_cases h2 : s = setID
      · simp [scanRecordSets, hn, hs, h1, h2]
      · simp [scanRecordSets, hn, hs, h1, h2, ihrest]
    · simp [scanRecordSets, hn, hs, h1, ihrest]

/-- C6: over an API whose first page at `(recordName, recordType)` has no
nil name/set-identifier fields, the locator returns the first record set
of that page matching on name AND set identifier (the type never enters
the match predicate), fails with the RecordSetNotFound error when the page
holds no match, and consults nothing beyond that single page (any API
agreeing on that one request produces the same result). -/
theorem getResourceRecordSet_first_match_single_page
    (api : ListResourceRecordSetsRequest →
      Except String ListResourceRecordSetsResponse)
    (zoneID recordName recordType setID : String)
    (page : List ResourceRecordSet)
    (hpage : api (listRequest zoneID recordName recordType) =
      Except.ok { ResourceRecordSets := page })
    (hsome : ∀ r ∈ page, r.Name.isSome ∧ r.SetIdentifier.isSome) :
    (getResourceRecordSet api zoneID recordName recordType setID =
      match page.find? (fun r =>
          decide (r.Name = some recordName ∧ r.SetIdentifier = some setID)) with
      | some r => GoResult.ok r
      | none =>
        GoResult.goError (recordSetNotFoundMsg zoneID recordName recordType setID)) ∧
    (∀ api2 : ListResourceRecordSetsRequest →
        Except String ListResourceRecordSetsResponse,
      api2 (listRequest zoneID recordName recordType) =
        api (listRequest zoneID recordName recordType) →
      getResourceRecordSet api2 zoneID recordName recordType setID =
        getResourceRecordSet api zoneID recordName recordType setID) := by
  constructor
  · simp only [getResourceRecordSet, hpage]
    rw [scanRecordSets_eq_find recordName setID page hsome]
    cases page.find? (fun r =>
        decide (r.Name = some recordName ∧ r.SetIdentifier = some setID)) <;>
      rfl
  · intro api2 hagree
    unfold getResourceRecordSet
    rw [hagree]

/-- The concrete page used by the C6 witness: the first record set has the
right name but the wrong set identifier; the second matches on name and
set identifier even though its type differs from the requested "A". -/
def witnessPage : List ResourceRecordSet :=
  [{ blankRecordSet with
      Name := some "www.example.com.",
      SetIdentifier := some "dc9",
      «Type» := some "A" },
   { blankRecordSet with
      Name := some "www.example.com.",
      ResourceRecords := [{ Value := "192.168.1.1" }],
      SetIdentifier := some "dc1",
      «Type» := some "TXT" }]

/-- Witness for C6 on `witnessPage`. -/
theorem getResourceRecordSet_first_match_single_page_witness :
    getResourceRecordSet (fun _ => Except.ok { ResourceRecordSets := witnessPage })
        "Z1" "www.example.com." "A" "dc1" =
      match witnessPage.find? (fun r =>
          decide (r.Name = some "www.example.com." ∧
            r.SetIdentifier = some "dc1")) with
      | some r => GoResult.ok r
      | none =>
        GoResult.goError (recordSetNotFoundMsg "Z1" "www.example.com." "A" "dc1") :=
  (getResourceRecordSet_first_match_single_page _ "Z1" "www.example.com." "A"
    "dc1" witnessPage rfl (by decide)).1

/-- C10: the matching loop dereferences `Name` (and, on a name match,
`SetIdentifier`) with no nil guard — a page whose head has a nil `Name`
crashes it — but whenever every record set of the page has both fields
present the loop is total: it never reaches the nil-dereference crash. -/
theorem scanRecordSets_no_nilDeref_of_fields_present
    (recordName setID : String) (page : List ResourceRecordSet)
    (hsome : ∀ r ∈ page, r.Name.isSome ∧ r.SetIdentifier.isSome) :
    scanRecordSets recordName setID page ≠ LocateResult.nilDeref ∧
    (∃ badPage : List ResourceRecordSet,
      scanRecordSets recordName setID badPage = LocateResult.nilDeref) := by
  constructor
  · rw [scanRecordSets_eq_find recordName setID page hsome]
    cases page.find? (fun r =>
        decide (r.Name = some recordName ∧ r.SetIdentifier = some setID)) <;>
      simp
  · exact ⟨[blankRecordSet], rfl⟩

/-- Witness for C10 on a concrete page with both fields present
everywhere. -/
theorem scanRecordSets_no_nilDeref_of_fields_present_witness :
    scanRecordSets "www.example.com." "dc1"
        [{ blankRecordSet with
            Name := some "www.example.com.",
            SetIdentifier := some "dc1",
            «Type» := some "A" }] ≠
      LocateResult.nilDeref :=
  (scanRecordSets_no_nilDeref_of_fields_present "www.example.com." "dc1" _
    (by decide)).1

/-- One step of building the `ipMap` in `delFromARecordResourceRecordSet`:
inserting a key into the Go map, modelled as appending it to the key list
unless already present. -/
def insertKey (m : List String) (key : String) : List String :=
  if key ∈ m then m else m ++ [key]

/-- The `ipMap` of `delFromARecordResourceRecordSet`: the requested IPs
put into a `map[string]struct\x7b\x7d`, i.e. the duplicate-free key list. -/
def buildIPMap (ips : List String) : List String :=
  ips.foldl insertKey []

/-- The record loop of `delFromARecordResourceRecordSet`: walk the
existing records; a record whose value is a key of `ipMap` is dropped and
its key removed from the map, any other record is kept. Returns the kept
records and the final map keys (the "IPs not found to delete"
diagnostic). -/
def delLoop (ipMap : List String) :
    List ResourceRecord → List ResourceRecord × List String
  | [] => ([], ipMap)
  | rr :: rest =>
    if rr.Value ∈ ipMap then delLoop (ipMap.erase rr.Value) rest
    else
      ((delLoop ipMap rest).1.cons rr, (delLoop ipMap rest).2)

/-- The single-change UPSERT request both mutators build
(`ChangeResourceRecordSetsRequest` holding one `Change` with action
"UPSERT" and the mutated record set). -/
def changeRequest (zoneID : String) (rrs : ResourceRecordSet) :
    ChangeResourceRecordSetsRequest :=
  { HostedZoneID := zoneID,
    ChangeBatch := { Changes :=
      [{ Action := "UPSERT", ResourceRecordSet := rrs }] } }

/-- Function `delFromARecordResourceRecordSet` from `main.go`: errors when no IP is
given; otherwise filters the record set's addresses through `delLoop` and
builds the single-change UPSERT request. The submitted request and the
diagnostic key list — effects in Go — are returned as data. -/
def delFromARecordResourceRecordSet (zoneID : String)
    (rrs : ResourceRecordSet) (ips : List String) :
    Except String (ChangeResourceRecordSetsRequest × List String) :=
  if ips.length = 0 then
    Except.error "at least one IP needs to be passed"
  else
    Except.ok
      (changeRequest zoneID { rrs with ResourceRecords := (delLoop (buildIPMap ips) rrs.ResourceRecords).1 },
       (delLoop (buildIPMap ips) rrs.ResourceRecords).2)

/-- Function `addToARecordResourceRecordSet` from `main.go`: errors when no IP is
given; otherwise appends one new record per requested IP (the Go
`for ... append` loop is the fold) and builds the single-change UPSERT
request. -/
def addToARecordResourceRecordSet (zoneID : String)
    (rrs : ResourceRecordSet) (ips : List String) :
    Except String ChangeResourceRecordSetsRequest :=
  if ips.length = 0 then
    Except.error "at least one IP needs to be passed"
  else
    Except.ok
      (changeRequest zoneID { rrs with ResourceRecords := ips.foldl (fun recs ip => recs ++ [{ Value := ip }]) rrs.ResourceRecords })

/-- The record sets carried by a change request (the tool always builds
exactly one change). -/
def changeRecordSets (req : ChangeResourceRecordSetsRequest) :
    List ResourceRecordSet :=
  req.ChangeBatch.Changes.map Change.ResourceRecordSet

/-- The address strings of a record list. -/
def recordValues (records : List ResourceRecord) : List String :=
  records.map ResourceRecord.Value

/-- The record sets an `add` call submits (empty when the call errors). -/
def addedRecordSets (zoneID : String) (rrs : ResourceRecordSet)
    (ips : List String) : List ResourceRecordSet :=
  match addToARecordResourceRecordSet zoneID rrs ips with
  | Except.ok req => changeRecordSets req
  | Except.error _ => []

/-- The record sets a `del` call submits (empty when the call errors). -/
def deletedRecordSets (zoneID : String) (rrs : ResourceRecordSet)
    (ips : List String) : List ResourceRecordSet :=
  match delFromARecordResourceRecordSet zoneID rrs ips with
  | Except.ok out => changeRecordSets out.1
  | Except.error _ => []

theorem mem_insertKey (m : List String) (key x : String) :
    x ∈ insertKey m key ↔ x ∈ m ∨ x = key := by
  unfold insertKey
  by_cases h : key ∈ m
  · rw [if_pos h]
    constructor
    · exact fun hx => Or.inl hx
    · rintro (hx | rfl)
      · exact hx
      · exact h
  · rw [if_neg h]
    simp [List.mem_append]

theorem nodup_insertKey (m : List String) (key : String) (hm : m.Nodup) :
    (insertKey m key).Nodup := by
  unfold insertKey
  by_cases h : key ∈ m
  · rw [if_pos h]
    exact hm
  · rw [if_neg h]
    simp [List.nodup_append, hm, h]

theorem mem_foldl_insertKey (ips : List String) (m : List String) (x : String) :
    x ∈ ips.foldl insertKey m ↔ x ∈ m ∨ x ∈ ips := by
  induction ips generalizing m with
  | nil => simp
  | cons ip rest ih =>
    rw [List.foldl_cons, ih, mem_insertKey]
    simp [List.mem_cons]
    tauto

theorem nodup_foldl_insertKey (ips : List String) (m : List String)
    (hm : m.Nodup) : (ips.foldl insertKey m).Nodup := by
  induction ips generalizing m with
  | nil => exact hm
  | cons ip rest ih => exact ih (insertKey m ip) (nodup_insertKey m ip hm)

theorem mem_buildIPMap (ips : List String) (x : String) :
    x ∈ buildIPMap ips ↔ x ∈ ips := by
  unfold buildIPMap
  rw [mem_foldl_insertKey]
  simp

theorem nodup_buildIPMap (ips : List String) : (buildIPMap ips).Nodup :=
  nodup_foldl_insertKey ips [] List.nodup_nil

theorem foldl_append_records (ips : List String) (recs : List ResourceRecord) :
    ips.foldl (fun acc ip => acc ++ [{ Value := ip }]) recs =
      recs ++ ips.map (fun ip => { Value := ip }) := by
  induction ips generalizing recs with
  | nil => simp
  | cons ip rest ih => simp [ih]

theorem delLoop_of_disjoint (ipMap : List String)
    (records : List ResourceRecord)
    (h : ∀ rr ∈ records, rr.Value ∉ ipMap) :
    delLoop ipMap records = (records, ipMap) := by
  induction records with
  | nil => rfl
  | cons rr rest ih =>
    have h1 : rr.Value ∉ ipMap := h rr (List.mem_cons_self rr rest)
    have h2 := ih (fun x hx => h x (List.mem_cons_of_mem rr hx))
    simp [delLoop, h1, h2]

theorem delLoop_fst_of_nodup (ipMap : List String)
    (records : List ResourceRecord) (hm : ipMap.Nodup)
    (hr : (recordValues records).Nodup) :
    (delLoop ipMap records).1 =
      records.filter (fun rr => decide (rr.Value ∉ ipMap)) := by
  induction records generalizing ipMap with
  | nil => rfl
  | cons rr rest ih =>
    simp only [recordValues, List.map_cons, List.nodup_cons] at hr
    obtain ⟨hv, hrest⟩ := hr
    by_cases h1 : rr.Value ∈ ipMap
    · have hstep : (delLoop ipMap (rr :: rest)).1 =
          (delLoop (ipMap.erase rr.Value) rest).1 := by
        simp [delLoop, h1]
      rw [hstep, ih (ipMap.erase rr.Value) (hm.erase rr.Value) hrest]
      have hfilter : rest.filter (fun x => decide (x.Value ∉ ipMap.erase rr.Value)) =
          rest.filter (fun x => decide (x.Value ∉ ipMap)) := by
        apply List.filter_congr
        intro x hx
        have hxne : x.Value ≠ rr.Value := by
          intro hcontra
          exact hv (hcontra ▸ List.mem_map_of_mem ResourceRecord.Value hx)
        rw [decide_eq_decide]
        rw [hm.mem_erase_iff]
        tauto
      rw [hfilter, List.filter_cons]
      simp [h1]
    · have hstep : (delLoop ipMap (rr :: rest)).1 =
          rr :: (delLoop ipMap rest).1 := by
        simp [delLoop, h1]
      rw [hstep, ih ipMap hm hrest, List.filter_cons]
      simp [h1]

theorem delLoop_snd_eq_filter (ipMap : List String)
    (records : List ResourceRecord) (hm : ipMap.Nodup) :
    (delLoop ipMap records).2 =
      ipMap.filter (fun key => decide (key ∉ recordValues records)) := by
  induction records generalizing ipMap with
  | nil => simp [delLoop, recordValues]
  | cons rr rest ih =>
    by_cases h1 : rr.Value ∈ ipMap
    · have hstep : (delLoop ipMap (rr :: rest)).2 =
          (delLoop (ipMap.erase rr.Value) rest).2 := by
        simp [delLoop, h1]
      rw [hstep, ih (ipMap.erase rr.Value) (hm.erase rr.Value),
        hm.erase_eq_filter rr.Value, List.filter_filter]
      apply List.filter_congr
      intro x hx
      apply Bool.eq_iff_iff.mpr
      simp only [recordValues, List.map_cons, List.mem_cons, not_or,
        Bool.and_eq_true, bne_iff_ne, Bool.not_eq_true', decide_eq_true_eq,
        decide_eq_false_iff_not]
      tauto
    · have hstep : (delLoop ipMap (rr :: rest)).2 = (delLoop ipMap rest).2 := by
        simp [delLoop, h1]
      rw [hstep, ih ipMap hm]
      apply List.filter_congr
      intro x hx
      have hxne : x ≠ rr.Value := fun hcontra => h1 (hcontra ▸ hx)
      rw [decide_eq_decide]
      simp only [recordValues, List.map_cons, List.mem_cons, not_or]
      tauto

theorem delFromARecordResourceRecordSet_eq (zoneID : String)
    (rrs : ResourceRecordSet) (ips : List String) (hne : ips ≠ [])
    (hnd : (recordValues rrs.ResourceRecords).Nodup) :
    delFromARecordResourceRecordSet zoneID rrs ips =
      Except.ok
        (changeRequest zoneID { rrs with ResourceRecords := rrs.ResourceRecords.filter (fun rr => decide (rr.Value ∉ ips)) },
         (buildIPMap ips).filter (fun key => decide (key ∉ recordValues rrs.ResourceRecords))) := by
  have hlen : ¬ ips.length = 0 := by simpa [List.length_eq_zero] using hne
  have hfst := delLoop_fst_of_nodup (buildIPMap ips) rrs.ResourceRecords
    (nodup_buildIPMap ips) hnd
  have hsnd := delLoop_snd_eq_filter (buildIPMap ips) rrs.ResourceRecords
    (nodup_buildIPMap ips)
  have hfst' : (delLoop (buildIPMap ips) rrs.ResourceRecords).1 =
      rrs.ResourceRecords.filter (fun rr => decide (rr.Value ∉ ips)) := by
    rw [hfst]
    apply List.filter_congr
    intro x hx
    rw [decide_eq_decide, mem_buildIPMap]
  unfold delFromARecordResourceRecordSet
  rw [if_neg hlen, hfst', hsnd]

theorem addToARecordResourceRecordSet_eq (zoneID : String)
    (rrs : ResourceRecordSet) (ips : List String) (hne : ips ≠ []) :
    addToARecordResourceRecordSet zoneID rrs ips =
      Except.ok
        (changeRequest zoneID { rrs with ResourceRecords := rrs.ResourceRecords ++ ips.map (fun ip => { Value := ip }) }) := by
  have hlen : ¬ ips.length = 0 := by simpa [List.length_eq_zero] using hne
  unfold addToARecordResourceRecordSet
  rw [if_neg hlen, foldl_append_records]

theorem addedRecordSets_eq (zoneID : String) (rrs : ResourceRecordSet)
    (ips : List String) (hne : ips ≠ []) :
    addedRecordSets zoneID rrs ips =
      [{ rrs with ResourceRecords := rrs.ResourceRecords ++ ips.map (fun ip => { Value := ip }) }] := by
  unfold addedRecordSets
  rw [addToARecordResourceRecordSet_eq zoneID rrs ips hne]
  rfl

theorem deletedRecordSets_eq (zoneID : String) (rrs : ResourceRecordSet)
    (ips : List String) (hne : ips ≠ [])
    (hnd : (recordValues rrs.ResourceRecords).Nodup) :
    deletedRecordSets zoneID rrs ips =
      [{ rrs with ResourceRecords := rrs.ResourceRecords.filter (fun rr => decide (rr.Value ∉ ips)) }] := by
  unfold deletedRecordSets
  rw [delFromARecordResourceRecordSet_eq zoneID rrs ips hne hnd]
  rfl

/-- A located record set used by concrete witnesses: one address,
"192.168.1.1". -/
def demoRecordSet : ResourceRecordSet :=
  { blankRecordSet with
      Name := some "www.example.com.",
      SetIdentifier := some "dc1",
      «Type» := some "A",
      TTL := some 300,
      Weight := some 10,
      ResourceRecords := [{ Value := "192.168.1.1" }] }

/-- A located record set with a duplicated address value. -/
def dupExisting : ResourceRecordSet :=
  { blankRecordSet with
      Name := some "www.example.com.",
      SetIdentifier := some "dc1",
      «Type» := some "A",
      ResourceRecords := [{ Value := "1.1.1.1" }, { Value := "1.1.1.1" }] }

/-- A located record set with an empty address list. -/
def emptyARecordSet : ResourceRecordSet :=
  { blankRecordSet with
      Name := some "www.example.com.",
      SetIdentifier := some "dc1",
      «Type» := some "A" }

/-- C3: `Add` with a non-empty IP list submits the existing addresses with
one new record appended per requested IP, unconditionally and with no
de-duplication; in particular two successive adds of the same IP leave its
occurrence count exactly 2 higher than in the original list. -/
theorem add_appends_each_ip_without_dedup (zoneID : String)
    (rrs : ResourceRecordSet) (ips : List String) (ip : String)
    (hne : ips ≠ []) :
    addToARecordResourceRecordSet zoneID rrs ips =
      Except.ok (changeRequest zoneID { rrs with ResourceRecords := rrs.ResourceRecords ++ ips.map (fun i => { Value := i }) }) ∧
    (∀ r1 ∈ addedRecordSets zoneID rrs [ip],
      ∀ r2 ∈ addedRecordSets zoneID r1 [ip],
        (recordValues r2.ResourceRecords).count ip =
          (recordValues rrs.ResourceRecords).count ip + 2) := by
  refine ⟨addToARecordResourceRecordSet_eq zoneID rrs ips hne, ?_⟩
  intro r1 hr1 r2 hr2
  rw [addedRecordSets_eq zoneID rrs [ip] (by simp), List.mem_singleton] at hr1
  subst hr1
  rw [addedRecordSets_eq zoneID _ [ip] (by simp), List.mem_singleton] at hr2
  subst hr2
  simp [recordValues, List.count_append]

/-- Witness for C3 at a concrete record set and IP. -/
theorem add_appends_each_ip_without_dedup_witness :
    addToARecordResourceRecordSet "Z1" demoRecordSet ["192.168.1.2"] =
      Except.ok (changeRequest "Z1" { demoRecordSet with ResourceRecords := demoRecordSet.ResourceRecords ++ ["192.168.1.2"].map (fun i => { Value := i }) }) :=
  (add_appends_each_ip_without_dedup "Z1" demoRecordSet ["192.168.1.2"]
    "192.168.1.2" (by decide)).1

/-- Two record sets agreeing on every field except possibly
`ResourceRecords`. -/
def sameFrame (a b : ResourceRecordSet) : Prop :=
  a.AliasTarget = b.AliasTarget ∧ a.Failover = b.Failover ∧
  a.GeoLocation = b.GeoLocation ∧ a.HealthCheckID = b.HealthCheckID ∧
  a.Name = b.Name ∧ a.Region = b.Region ∧
  a.SetIdentifier = b.SetIdentifier ∧ a.TTL = b.TTL ∧
  a.«Type» = b.«Type» ∧ a.Weight = b.Weight

/-- C9: both mutators modify only the address list: every record set
submitted in the UPSERT change agrees with the located record set on name,
type, set identifier, TTL, weight and every remaining field. -/
theorem mutators_modify_only_addresses (zoneID : String)
    (rrs : ResourceRecordSet) (ips : List String) (hne : ips ≠ []) :
    (∀ req, addToARecordResourceRecordSet zoneID rrs ips = Except.ok req →
      ∀ r ∈ changeRecordSets req, sameFrame r rrs) ∧
    (∀ req diag,
      delFromARecordResourceRecordSet zoneID rrs ips = Except.ok (req, diag) →
      ∀ r ∈ changeRecordSets req, sameFrame r rrs) := by
  have hlen : ¬ ips.length = 0 := by simpa [List.length_eq_zero] using hne
  constructor
  · intro req hreq r hr
    unfold addToARecordResourceRecordSet at hreq
    rw [if_neg hlen] at hreq
    injection hreq with h
    subst h
    simp only [changeRecordSets, changeRequest, List.map_cons, List.map_nil,
      List.mem_singleton] at hr
    subst hr
    exact ⟨rfl, rfl, rfl, rfl, rfl, rfl, rfl, rfl, rfl, rfl⟩
  · intro req diag hreq r hr
    unfold delFromARecordResourceRecordSet at hreq
    rw [if_neg hlen] at hreq
    injection hreq with h
    rw [Prod.mk.injEq] at h
    obtain ⟨h1, h2⟩ := h
    subst h1
    simp only [changeRecordSets, changeRequest, List.map_cons, List.map_nil,
      List.mem_singleton] at hr
    subst hr
    exact ⟨rfl, rfl, rfl, rfl, rfl, rfl, rfl, rfl, rfl, rfl⟩

/-- Witness for C9: the record set submitted by a concrete `add` shares
every non-address field with the input. -/
theorem mutators_modify_only_addresses_witness :
    sameFrame { demoRecordSet with ResourceRecords := demoRecordSet.ResourceRecords ++ [{ Value := "192.168.1.2" }] } demoRecordSet :=
  (mutators_modify_only_addresses "Z1" demoRecordSet ["192.168.1.2"]
      (by decide)).1
    (changeRequest "Z1" { demoRecordSet with ResourceRecords := demoRecordSet.ResourceRecords ++ [{ Value := "192.168.1.2" }] })
    (by decide) _ (by decide)

/-- C5: deleting IPs none of which occur in the record set submits the
address list unchanged and yields exactly the requested (absent) IPs as
the not-found diagnostic key set. -/
theorem delete_of_absent_ips_is_noop (zoneID : String)
    (rrs : ResourceRecordSet) (ips : List String) (hne : ips ≠ [])
    (hdisj : ∀ rr ∈ rrs.ResourceRecords, rr.Value ∉ ips) :
    delFromARecordResourceRecordSet zoneID rrs ips =
      Except.ok (changeRequest zoneID rrs, buildIPMap ips) ∧
    (∀ x, x ∈ buildIPMap ips ↔ x ∈ ips) := by
  have hlen : ¬ ips.length = 0 := by simpa [List.length_eq_zero] using hne
  have hdisj2 : ∀ rr ∈ rrs.ResourceRecords, rr.Value ∉ buildIPMap ips :=
    fun rr h => by
      rw [mem_buildIPMap]
      exact hdisj rr h
  have hdel := delLoop_of_disjoint (buildIPMap ips) rrs.ResourceRecords hdisj2
  refine ⟨?_, fun x => mem_buildIPMap ips x⟩
  unfold delFromARecordResourceRecordSet
  rw [if_neg hlen, hdel]

/-- Witness for C5: deleting an absent IP (given twice) from a concrete
record set; the submitted set is unchanged and the diagnostic holds the
absent IP once. -/
theorem delete_of_absent_ips_is_noop_witness :
    delFromARecordResourceRecordSet "Z1" demoRecordSet ["10.0.0.1", "10.0.0.1"] =
      Except.ok (changeRequest "Z1" demoRecordSet, buildIPMap ["10.0.0.1", "10.0.0.1"]) :=
  (delete_of_absent_ips_is_noop "Z1" demoRecordSet ["10.0.0.1", "10.0.0.1"]
    (by decide) (by decide)).1

/-- Counterexample to C1 as stated: with existing addresses
["1.1.1.1", "1.1.1.1"], deleting ["1.1.1.1"] erases the map key at the
first occurrence, so the second occurrence is no longer matched and is
kept — the submitted list still contains an address from the
delete-set. -/
theorem delete_keeps_second_duplicate :
    deletedRecordSets "Z1" dupExisting ["1.1.1.1"] =
      [{ dupExisting with ResourceRecords := [{ Value := "1.1.1.1" }] }] ∧
    (∃ r ∈ deletedRecordSets "Z1" dupExisting ["1.1.1.1"],
      "1.1.1.1" ∈ recordValues r.ResourceRecords) := by decide

/-- C1 (amended): for a located record set whose existing address values
are duplicate-free, `Delete` with a non-empty IP list submits exactly the
set difference — the kept records are precisely the existing ones whose
value is not among the requested IPs (so the result may be empty), and the
whole filtered list is what the single UPSERT change carries, with the
unmatched keys left as the not-found diagnostic. -/
theorem delete_is_set_difference (zoneID : String) (rrs : ResourceRecordSet)
    (ips : List String) (hne : ips ≠ [])
    (hnd : (recordValues rrs.ResourceRecords).Nodup) :
    delFromARecordResourceRecordSet zoneID rrs ips =
      Except.ok
        (changeRequest zoneID { rrs with ResourceRecords := rrs.ResourceRecords.filter (fun rr => decide (rr.Value ∉ ips)) },
         (buildIPMap ips).filter (fun key => decide (key ∉ recordValues rrs.ResourceRecords))) ∧
    (∀ rr ∈ rrs.ResourceRecords.filter (fun rr => decide (rr.Value ∉ ips)),
      rr.Value ∉ ips) ∧
    (∀ rr ∈ rrs.ResourceRecords, rr.Value ∉ ips →
      rr ∈ rrs.ResourceRecords.filter (fun rr => decide (rr.Value ∉ ips))) := by
  refine ⟨delFromARecordResourceRecordSet_eq zoneID rrs ips hne hnd, ?_, ?_⟩
  · intro rr hrr
    have h2 := (List.mem_filter.mp hrr).2
    simpa using h2
  · intro rr hrr hnotin
    exact List.mem_filter.mpr ⟨hrr, by simpa using hnotin⟩

/-- Witness for C1 at a concrete record set: one requested IP present, one
absent. -/
theorem delete_is_set_difference_witness :
    delFromARecordResourceRecordSet "Z1" demoRecordSet ["192.168.1.1", "10.0.0.9"] =
      Except.ok
        (changeRequest "Z1" { demoRecordSet with ResourceRecords := demoRecordSet.ResourceRecords.filter (fun rr => decide (rr.Value ∉ ["192.168.1.1", "10.0.0.9"])) },
         (buildIPMap ["192.168.1.1", "10.0.0.9"]).filter (fun key => decide (key ∉ recordValues demoRecordSet.ResourceRecords))) :=
  (delete_is_set_difference "Z1" demoRecordSet ["192.168.1.1", "10.0.0.9"]
    (by decide) (by decide)).1

/-- Counterexample to C4 as stated: for L = ["1.1.1.1", "1.1.1.1"]
(an IP list with a duplicate), `Add` appends two records, and the
following `Delete` of L erases the single map key at the first record, so
the second survives: the submitted list after Delete(Add(∅, L), L) still
contains an element of L. -/
theorem del_after_add_duplicate_counterexample :
    ∃ r1 ∈ addedRecordSets "Z1" emptyARecordSet ["1.1.1.1", "1.1.1.1"],
      ∃ r2 ∈ deletedRecordSets "Z1" r1 ["1.1.1.1", "1.1.1.1"],
        ∃ ip ∈ (["1.1.1.1", "1.1.1.1"] : List String),
          ip ∈ recordValues r2.ResourceRecords := by decide

/-- C4 (amended): for every duplicate-free IP list L, adding L to a record
set with an empty address list and then deleting L submits an address list
free of every element of L. -/
theorem del_after_add_is_free (zoneID : String) (rrs : ResourceRecordSet)
    (L : List String) (hmt : rrs.ResourceRecords = []) (hnd : L.Nodup) :
    ∀ r1 ∈ addedRecordSets zoneID rrs L,
      ∀ r2 ∈ deletedRecordSets zoneID r1 L,
        ∀ ip ∈ L, ip ∉ recordValues r2.ResourceRecords := by
  intro r1 hr1 r2 hr2 ip hip
  rcases eq_or_ne L [] with hL | hL
  · subst hL
    exact absurd hip (List.not_mem_nil ip)
  · rw [addedRecordSets_eq zoneID rrs L hL, List.mem_singleton] at hr1
    subst hr1
    have hvals : recordValues ({ rrs with ResourceRecords := rrs.ResourceRecords ++ L.map (fun ip => { Value := ip }) } : ResourceRecordSet).ResourceRecords = L := by
      simp only [recordValues, List.map_append, List.map_map, hmt,
        List.map_nil, List.nil_append]
      exact List.map_id L
    rw [deletedRecordSets_eq zoneID _ L hL (by rw [hvals]; exact hnd),
      List.mem_singleton] at hr2
    subst hr2
    intro hcontra
    simp only [recordValues, List.mem_map] at hcontra
    obtain ⟨rr, hrrmem, hval⟩ := hcontra
    rw [List.mem_filter] at hrrmem
    have hnot : rr.Value ∉ L := by simpa using hrrmem.2
    exact hnot (by rw [hval]; exact hip)

/-- Witness for C4 on a concrete one-element list. -/
theorem del_after_add_is_free_witness :
    "192.168.1.5" ∉ recordValues
      ({ emptyARecordSet with ResourceRecords := ([] : List ResourceRecord) } : ResourceRecordSet).ResourceRecords :=
  del_after_add_is_free "Z1" emptyARecordSet ["192.168.1.5"] rfl (by decide)
    { emptyARecordSet with ResourceRecords := [{ Value := "192.168.1.5" }] }
    (by decide)
    { emptyARecordSet with ResourceRecords := ([] : List ResourceRecord) }
    (by decide)
    "192.168.1.5" (by decide)

end R53Tool
